import Mathlib

/-!
Shallow embedding of `Exercise-1.py`: a discrete Bayesian network built from
conditional-probability-table variables, a topological sorter, and an
inference-by-enumeration engine.

Modelling conventions:
* Python floats are modelled exactly as rationals (`ℚ`).
* Python exceptions are modelled with `Except` over an error-kind type;
  exception message strings are dropped, only the class is kept.
* Python dicts are modelled as insertion-ordered association lists with the
  usual first-match lookup and update-or-append assignment.
* The two `while` loops of `sorted_nodes` are modelled with an explicit fuel
  parameter (`none` = the fuel ran out); every other function of the source
  terminates structurally and is embedded as a total function.
-/

namespace Ex1

/-- Kinds of Python exceptions raised by the translated code, together with the
two error names that appear only in the specification
(`zeroProbabilityEvidence`, `cycleDetected`); the latter are used by the
spec-side reference definitions and in refutations. -/
inductive PyErr where
  | typeError
  | valueError
  | keyError
  | indexError
  | zeroDivisionError
  | zeroProbabilityEvidence
  | cycleDetected
deriving DecidableEq, Repr

/-- `Variable` (source lines 6-46): field names follow the Python attributes.
`table` is the conditional probability table, one row per state. -/
structure Variable where
  name : String
  no_states : Nat
  table : List (List ℚ)
  parents : List String
  no_parent_states : List Nat
deriving DecidableEq, Repr

/-- Python runtime values that can flow into `Variable.probability` and into
evidence dicts: genuine `int`s, floats, numpy integer scalars (which are not
`int` for `isinstance`), `Variable` objects, and string-keyed dicts. -/
inductive PyObj where
  | int (n : Int)
  | float (q : ℚ)
  | npint (n : Int)
  | varObj (v : Variable)
  | dict (d : List (String × PyObj))

/-- First-match lookup in an insertion-ordered association list (a Python dict
read `d[k]` / `k in d`). -/
def assocLookup {α : Type} (d : List (String × α)) (k : String) : Option α :=
  match d with
  | [] => none
  | (k', v) :: t => if k' == k then some v else assocLookup t k

/-- Python dict assignment `d[k] = v`: replace the first binding of `k`,
keeping its position, or append a new binding. -/
def assocInsert {α : Type} : List (String × α) → String → α → List (String × α)
  | [], k, v => [(k, v)]
  | (k', v') :: t, k, v => if k' == k then (k, v) :: t else (k', v') :: assocInsert t k v

/-- `np.prod(cards[:i])`, exact over `ℚ` (all factors are integers). -/
def npProdTake (cards : List Nat) (i : Nat) : ℚ := (((cards.take i).prod : Nat) : ℚ)

/-- Python `int(x)` on a float: truncation toward zero. -/
def pyTruncToInt (q : ℚ) : Int := Int.tdiv q.num (q.den : Int)

/-- Bounds-checked numpy 2-d lookup `table[r, c]`: a negative index wraps once
by the corresponding length; anything still out of range is an `IndexError`. -/
def npIndex2 (table : List (List ℚ)) (r c : Int) : Except PyErr ℚ :=
  let r' := if r < 0 then r + table.length else r
  if r' < 0 then .error .indexError else
    match table.get? r'.toNat with
    | none => .error .indexError
    | some row =>
      let c' := if c < 0 then c + row.length else c
      if c' < 0 then .error .indexError else
        match row.get? c'.toNat with
        | none => .error .indexError
        | some q => .ok q

/-- The body of the `for variable in self.parents` loop of `probability`
(source lines 105-110): a missing parent is a `ValueError`;
`var_index = parents.index(variable)` is the FIRST position whose entry
equals `variable`; the bound value is multiplied by the numpy stride
`np.prod(no_parent_states[:var_index])` and added onto the running float
`table_index` (a value that is neither int, float nor numpy scalar cannot be
multiplied by the stride and raises `TypeError`). -/
def tableIndexStep (v : Variable) (ps : List (String × PyObj)) (acc : ℚ) (pname : String) :
    Except PyErr ℚ :=
  match assocLookup ps pname with
  | none => Except.error PyErr.valueError
  | some val =>
    let var_index := v.parents.findIdx (fun pn => pn == pname)
    let stride := npProdTake v.no_parent_states var_index
    match val with
    | .int n => Except.ok (acc + (n : ℚ) * stride)
    | .float x => Except.ok (acc + x * stride)
    | .npint n => Except.ok (acc + (n : ℚ) * stride)
    | _ => Except.error PyErr.typeError


/-- `Variable.probability` (source lines 84-112): `isinstance` guards on
`state` and `parentstates`, range checks on `state`, then the column index
accumulated as
`table_index += parentstates[p] * np.prod(no_parent_states[:parents.index(p)])`
over the declared parents in order, truncated with `int(...)`, and the lookup
`table[state, int(table_index)]`.  A parent missing from `parentstates` is a
`ValueError`; a dict value that is neither an int, a float nor a numpy scalar
cannot be multiplied by the numpy stride and raises `TypeError`. -/
def probabilityPy (v : Variable) (state parentstates : PyObj) : Except PyErr ℚ :=
  match state with
  | .int s =>
    match parentstates with
    | .dict ps =>
      if (v.no_states : Int) ≤ s then .error .valueError
      else if s < 0 then .error .valueError
      else
        match v.parents.foldlM (tableIndexStep v ps) 0 with
        | .error e => .error e
        | .ok idx => npIndex2 v.table s (pyTruncToInt idx)
    | _ => .error .typeError
  | _ => .error .typeError

/-- Whether a nested list is rectangular, i.e. `np.array` of it yields a 2-d
array (every row as long as the first). -/
def rectangular : List (List ℚ) → Bool
  | [] => true
  | r :: rs => rs.all (fun x => x.length == r.length)

/-- Sum of column `c` of a table (missing entries contribute `0`; for a
rectangular table with `c` in range nothing is missing). -/
def colSum (t : List (List ℚ)) (c : Nat) : ℚ := (t.map (fun r => r.getD c 0)).sum

/-- `np.allclose(table.sum(axis=0), 1)` with numpy's default tolerances
`rtol = 1e-5`, `atol = 1e-8`: every column sum is within `1001/10^8` of 1. -/
def columnsAllClose (t : List (List ℚ)) (width : Nat) : Bool :=
  (List.range width).all (fun c => decide (|colSum t c - 1| ≤ 1001 / 100000000))

/-- `Variable.__init__` (source lines 7-58): `np.array(table)` fails on a
ragged table; then the row count must equal `no_states`, accessing
`shape[1]` of an empty array is an `IndexError`, the column count must equal
`prod(no_parent_states)`, every column must sum to 1 within numpy's
`allclose` tolerance, and `parents` and `no_parent_states` must have equal
length.  On success the constructed `Variable` is returned. -/
def variableConstruct (name : String) (no_states : Nat) (table : List (List ℚ))
    (parents : List String) (no_parent_states : List Nat) : Except PyErr Variable :=
  if ¬ rectangular table then .error .valueError
  else if table.length ≠ no_states then .error .valueError
  else
    match table.head? with
    | none => .error .indexError
    | some r0 =>
      if r0.length ≠ no_parent_states.prod then .error .valueError
      else if ¬ columnsAllClose table r0.length then .error .valueError
      else if parents.length ≠ no_parent_states.length then .error .valueError
      else .ok ⟨name, no_states, table, parents, no_parent_states⟩

instance {ε α : Type} [DecidableEq ε] [DecidableEq α] : DecidableEq (Except ε α) :=
  fun a b =>
    match a, b with
    | .ok x, .ok y => decidable_of_iff (x = y) (by simp)
    | .error e, .error f => decidable_of_iff (e = f) (by simp)
    | .ok _, .error _ => isFalse (fun h => Except.noConfusion h)
    | .error _, .ok _ => isFalse (fun h => Except.noConfusion h)

/-- A `Variable` is valid when re-running the source constructor on its own
fields succeeds and reproduces it. -/
def Variable.valid (v : Variable) : Prop :=
  variableConstruct v.name v.no_states v.table v.parents v.no_parent_states = .ok v

instance (v : Variable) : Decidable v.valid := by
  unfold Variable.valid; infer_instance

/-- `InferenceByEnumeration.normalize` (source lines 216-219):
`z = sum(query)` and `[element * 1 / z for element in query]`.  When `z = 0`
the first executed division raises `ZeroDivisionError`; over an empty list no
division is executed and `[]` is returned. -/
def normalize (query : List ℚ) : Except PyErr (List ℚ) :=
  let z := query.sum
  query.mapM (fun element =>
    if z = 0 then Except.error PyErr.zeroDivisionError else Except.ok (element * 1 / z))

/-- `BayesianNetwork` (source lines 115-127): `variables` is the dict from
name to `Variable` in insertion order; `edges` is the defaultdict from a
parent `Variable` to the list of its direct children. -/
structure BayesianNetwork where
  «variables» : List (String × Variable)
  edges : List (Variable × List Variable)
deriving Repr

/-- Read of `self.variables[name]` (first-match, keys are unique). -/
def netLookup (bn : BayesianNetwork) (name : String) : Option Variable :=
  (bn.«variables».find? (fun p => p.1 == name)).map (·.2)

/-- `BayesianNetwork.add_variable` (source lines 129-135): a `TypeError` when
the argument is not a `Variable`; otherwise the dict assignment
`self.variables[variable.name] = variable`, which replaces any previous
binding of that name. -/
def add_variable (bn : BayesianNetwork) («variable» : PyObj) : Except PyErr BayesianNetwork :=
  match «variable» with
  | .varObj v => .ok ⟨assocInsert bn.«variables» v.name v, bn.edges⟩
  | _ => .error .typeError

/-- Lookup in the `edges` association list, keyed by `Variable`. -/
def vassocLookup (d : List (Variable × List Variable)) (k : Variable) : Option (List Variable) :=
  (d.find? (fun p => p.1 == k)).map (·.2)

/-- Replace the binding of `k` in the `edges` association list (the key is
assumed present; otherwise append). -/
def vassocSet (d : List (Variable × List Variable)) (k : Variable) (l : List Variable) :
    List (Variable × List Variable) :=
  if d.any (fun p => p.1 == k) then
    d.map (fun p => if p.1 == k then (k, l) else p)
  else d ++ [(k, l)]

/-- defaultdict read `d[k]`: returns the stored list, or inserts and returns a
fresh empty list when the key is missing. -/
def ddGet (d : List (Variable × List Variable)) (k : Variable) :
    List Variable × List (Variable × List Variable) :=
  match vassocLookup d k with
  | some l => (l, d)
  | none => ([], d ++ [(k, [])])

/-- `BayesianNetwork.add_edge` (source lines 137-146): both endpoints must
already be registered, then `self.edges[from_variable].append(to_variable)`. -/
def add_edge (bn : BayesianNetwork) (from_variable to_variable : Variable) :
    Except PyErr BayesianNetwork :=
  if ¬ bn.«variables».any (fun p => p.2 == from_variable) then .error .valueError
  else if ¬ bn.«variables».any (fun p => p.2 == to_variable) then .error .valueError
  else
    let (l, d) := ddGet bn.edges from_variable
    .ok ⟨bn.«variables», vassocSet d from_variable (l ++ [to_variable])⟩

/-- The mutable state of `sorted_nodes` (source lines 169-174): `l_sorted`,
the stack `s_origin_nodes`, the (shallow-copied) `edge_dict`, and the keys of
`children_of_variable`.  Each value of `children_of_variable` is an alias of
the list stored in `edge_dict` under the same key, so only the key set needs
to be tracked: `children_of_variable.values()` is `covKeys.map`-over the
current `edge_dict` lists. -/
structure SortState where
  lSorted : List Variable
  sOrigin : List Variable
  edgeLists : List (Variable × List Variable)
  covKeys : List Variable
deriving Repr

/-- The inner `for liste in children_of_variable.values()` loop (source lines
197-202): for each aliased list in key-insertion order, stop at the first one
containing `child`, and append `child` to `s_origin_nodes` for every list
inspected before that. -/
def forAppend (child : Variable) : List (List Variable) → List Variable → List Variable
  | [], s => s
  | l :: ls, s => if child ∈ l then s else forAppend child ls (s ++ [child])

/-- The inner `while edge_dict[n_parent]` loop of `sorted_nodes` (source lines
187-203), fuel-indexed.  One iteration: read the (shared) child list, record
`n` as a key of `children_of_variable`, remove the head child, run the
`for liste ...` loop over the current aliased lists, then append the child
back to the shared list. -/
def innerWhile (n : Variable) : Nat → SortState → Option SortState
  | 0, _ => none
  | f + 1, st =>
    let (cl, el) := ddGet st.edgeLists n
    let st1 : SortState := ⟨st.lSorted, st.sOrigin, el, st.covKeys⟩
    match cl with
    | [] => some st1
    | child :: rest =>
      let ck := if st1.covKeys.contains n then st1.covKeys else st1.covKeys ++ [n]
      let el2 := vassocSet st1.edgeLists n rest
      let listes := ck.map (fun k => (vassocLookup el2 k).getD [])
      let so2 := forAppend child listes st1.sOrigin
      let el3 := vassocSet el2 n (rest ++ [child])
      innerWhile n f ⟨st1.lSorted, so2, el3, ck⟩

/-- The outer `while s_origin_nodes` loop of `sorted_nodes` (source lines
182-203), fuel-indexed: pop the last stacked node, append it to `l_sorted`,
and run the inner loop. -/
def outerWhile : Nat → SortState → Option SortState
  | 0, _ => none
  | f + 1, st =>
    match st.sOrigin.getLast? with
    | none => some st
    | some n =>
      let st1 : SortState := ⟨st.lSorted ++ [n], st.sOrigin.dropLast, st.edgeLists, st.covKeys⟩
      match innerWhile n f st1 with
      | none => none
      | some st2 => outerWhile f st2

/-- The final `for variable in variables` check of `sorted_nodes` (source
lines 205-208): `children_of_variable[variable]` raises `KeyError` when the
variable was never recorded; a recorded variable with a nonempty (aliased)
list makes the function print a message and return `None` (encoded
`.ok none`); otherwise `l_sorted` is returned (encoded `.ok (some ...)`). -/
def cycleCheck (st : SortState) : List Variable → Except PyErr (Option (List Variable))
  | [] => .ok (some st.lSorted)
  | v :: vs =>
    if st.covKeys.contains v then
      if ((vassocLookup st.edgeLists v).getD []).isEmpty then cycleCheck st vs
      else .ok none
    else .error .keyError

/-- `BayesianNetwork.sorted_nodes` (source lines 163-208), fuel-indexed:
collect the variables in insertion order, stack those with no declared
parents, run the nested loops, then the final check.  `none` means the fuel
ran out, i.e. the Python call does not terminate within that many loop
iterations. -/
def sorted_nodes (bn : BayesianNetwork) (fuel : Nat) :
    Option (Except PyErr (Option (List Variable))) :=
  let vlist := bn.«variables».map (·.2)
  let sOrigin := vlist.filter (fun v => v.parents.isEmpty)
  match outerWhile fuel ⟨[], sOrigin, bn.edges, []⟩ with
  | none => none
  | some st => some (cycleCheck st vlist)

/-- `InferenceByEnumeration.get_parents` (source lines 238-242): look each
parent name up in the network (`KeyError` when missing). -/
def get_parents (bn : BayesianNetwork) (v : Variable) : Except PyErr (List Variable) :=
  v.parents.mapM (fun pname =>
    match netLookup bn pname with
    | some p => Except.ok p
    | none => Except.error PyErr.keyError)

/-- Python's `y_variable in y_evidence` (source line 258) asks whether the
`Variable` object equals one of the dict's `str` keys; a `Variable` never
equals a `str`, so the test is always `False`. -/
def varInDictKeys (_evidence : List (String × PyObj)) (_v : Variable) : Bool := false

/-- `InferenceByEnumeration._enumerate_all` (source lines 244-264), with the
list length as a structural recursion measure (`vars.pop()` shortens the list
by one before every recursive call, so the measure argument is always the
length of the list argument and the fuel-out branch is unreachable).
An iteration: pop the LAST variable `y`; `get_parents` may raise `KeyError`;
the evidence-membership test compares `y` against string keys and is always
false, so the summation branch runs: for each state, `probability` is applied
to the ORIGINAL `evidence` parameter while the recursive call receives
`y_evidence`, which from the second state on maps `y.name` to the `Variable`
OBJECT `y` (not a state index). -/
def enumAllAux (bn : BayesianNetwork) :
    Nat → List Variable → List (String × PyObj) → Except PyErr ℚ
  | _, [], _ => .ok 1
  | 0, _ :: _, _ => .ok 0
  | n + 1, v :: vs, evidence =>
    let y := (v :: vs).getLastD v
    let rest := (v :: vs).dropLast
    match get_parents bn y with
    | .error e => .error e
    | .ok _y_parents =>
      let y_evidence := evidence
      if varInDictKeys y_evidence y then
        match probabilityPy y (.int (y.no_states : Int)) (.dict y_evidence) with
        | .error e => .error e
        | .ok p =>
          match enumAllAux bn n rest y_evidence with
          | .error e => .error e
          | .ok r => .ok (p * r)
      else
        match (List.range y.no_states).foldlM
            (fun (acc : ℚ × List (String × PyObj)) (y_state : Nat) =>
              match probabilityPy y (.int (y_state : Int)) (.dict evidence) with
              | .error e => Except.error e
              | .ok p =>
                match enumAllAux bn n rest acc.2 with
                | .error e => Except.error e
                | .ok r =>
                  Except.ok (acc.1 + p * r, assocInsert acc.2 y.name (.varObj y)))
            (0, y_evidence) with
        | .error e => .error e
        | .ok summ => .ok summ.1

/-- `_enumerate_all` at its real measure. -/
def enumerate_all (bn : BayesianNetwork) (vars : List Variable)
    (evidence : List (String × PyObj)) : Except PyErr ℚ :=
  enumAllAux bn vars.length vars evidence

/-- `InferenceByEnumeration` object state (source lines 211-214): the network
and the cached `topo_order`. -/
structure InferenceByEnumeration where
  bayesian_network : BayesianNetwork
  topo_order : List Variable

/-- `InferenceByEnumeration._enumeration_ask` (source lines 221-236).  The
loop threads two pieces of mutable state: `new_vars`, which `_enumerate_all`
pops one element from on every top-level call (aliasing!), and `x_evidence`,
which is extended AFTER each `_enumerate_all` call and with the `Variable`
OBJECT rather than the state index.  The collected weights are normalized. -/
def enumeration_ask (ib : InferenceByEnumeration) (X : String)
    (evidence : List (String × PyObj)) : Except PyErr (List ℚ) :=
  match netLookup ib.bayesian_network X with
  | none => .error .keyError
  | some x_variable =>
    match (List.range x_variable.no_states).foldlM
        (fun (acc : List ℚ × List Variable × List (String × PyObj)) (_x_state : Nat) =>
          match enumerate_all ib.bayesian_network acc.2.1 acc.2.2 with
          | .error e => Except.error e
          | .ok w =>
            Except.ok (acc.1 ++ [w], acc.2.1.dropLast,
              assocInsert acc.2.2 x_variable.name (.varObj x_variable)))
        ([], ib.topo_order, evidence) with
    | .error e => .error e
    | .ok acc => normalize acc.1

/-- `InferenceByEnumeration.query` (source lines 278-283): run
`_enumeration_ask`, reshape the result vector into a one-column table, and
build a fresh `Variable` through the validating constructor. -/
def query (ib : InferenceByEnumeration) (var : String)
    (evidence : List (String × PyObj)) : Except PyErr Variable :=
  match enumeration_ask ib var evidence with
  | .error e => .error e
  | .ok q =>
    match netLookup ib.bayesian_network var with
    | none => .error .keyError
    | some xv => variableConstruct var xv.no_states (q.map (fun x => [x])) [] []

/-- Whether a Python value is an `int` in the `isinstance` sense (floats and
numpy integer scalars are not). -/
def PyObj.isInt : PyObj → Bool
  | .int _ => true
  | _ => false

/-- Whether a Python value is a `dict` in the `isinstance` sense. -/
def PyObj.isDict : PyObj → Bool
  | .dict _ => true
  | _ => false

/-- The specification's `parentAssignmentFrom(evidence, parentNames)`:
the projection of the evidence dict onto the requested keys. -/
def parentAssignmentFrom (evidence : List (String × PyObj)) (parentNames : List String) :
    List (String × PyObj) :=
  parentNames.foldl (fun acc p =>
    match assocLookup evidence p with
    | some v => acc ++ [(p, v)]
    | none => acc) []

/-- Reference recursion for `EnumerateAll` as the claims state it (spec §4.3),
with the list length as a structural measure: `1` on the empty list, and
otherwise the FIRST variable `Y` is consumed: an observed `Y` contributes
`Y.probability(evidence[Y.name], projection) * EnumerateAll(rest, evidence)`;
an unobserved `Y` contributes the sum over its states `y` of
`Y.probability(y, projection) * EnumerateAll(rest, evidence ∪ (Y.name, y))`,
each branch with its own extended evidence. -/
def enumRefAux : Nat → List Variable → List (String × PyObj) → Except PyErr ℚ
  | _, [], _ => .ok 1
  | 0, _ :: _, _ => .ok 0
  | n + 1, y :: rest, evidence =>
    match assocLookup evidence y.name with
    | some obsVal =>
      match probabilityPy y obsVal (.dict (parentAssignmentFrom evidence y.parents)) with
      | .error e => .error e
      | .ok p =>
        match enumRefAux n rest evidence with
        | .error e => .error e
        | .ok r => .ok (p * r)
    | none =>
      match (List.range y.no_states).mapM (fun y_state =>
          match probabilityPy y (.int (y_state : Int))
              (.dict (parentAssignmentFrom evidence y.parents)) with
          | .error e => Except.error e
          | .ok p =>
            match enumRefAux n rest (assocInsert evidence y.name (.int (y_state : Int))) with
            | .error e => Except.error e
            | .ok r => Except.ok (p * r)) with
      | .error e => .error e
      | .ok terms => .ok terms.sum

/-- `EnumerateAll` of the specification at its real measure. -/
def enumerateAllRef (vars : List Variable) (evidence : List (String × PyObj)) :
    Except PyErr ℚ :=
  enumRefAux vars.length vars evidence

/-- `Normalize` as the specification states it: `ZeroProbabilityEvidence`
when the weights sum to zero, otherwise division by the sum. -/
def normalizeRef (weights : List ℚ) : Except PyErr (List ℚ) :=
  if weights.sum = 0 then .error .zeroProbabilityEvidence
  else .ok (weights.map (fun w => w / weights.sum))

/-- Reference `EnumerationAsk` as claim C2 states it: for each state `x` of
the query variable, bind `X ↦ x` (overriding) BEFORE evaluating
`EnumerateAll` on the same full order, then normalize the weights. -/
def enumerationAskRef (bn : BayesianNetwork) (order : List Variable) (X : String)
    (evidence : List (String × PyObj)) : Except PyErr (List ℚ) :=
  match netLookup bn X with
  | none => .error .keyError
  | some x =>
    match (List.range x.no_states).mapM (fun s =>
        enumerateAllRef order (assocInsert evidence X (.int (s : Int)))) with
    | .error e => .error e
    | .ok weights => normalizeRef weights

/-- The per-parent value of the specification's column formula: the evidence
value bound to a parent name, as an integer (`0` when absent or non-integer;
the theorems only use it under the hypothesis that every declared parent is
bound to an in-range integer). -/
def psInt (ps : List (String × PyObj)) (k : String) : Int :=
  match assocLookup ps k with
  | some (.int n) => n
  | _ => 0

/-- The specification's mixed-radix column index
`column = Σᵢ parentstates[parents[i]] × ∏_{j<i} no_parent_states[j]`,
computed with a running stride (the first listed parent has stride 1, each
later parent's stride is the product of the cardinalities before it). -/
def specColumnAux (ps : List (String × PyObj)) :
    List String → List Nat → Int → Int
  | [], _, _ => 0
  | p :: pr, cards, stride =>
    psInt ps p * stride + specColumnAux ps pr cards.tail (stride * (cards.headD 1 : Int))

/-- The specification's column index for a variable's declared parents. -/
def specColumn (v : Variable) (ps : List (String × PyObj)) : Int :=
  specColumnAux ps v.parents v.no_parent_states 1

/-- Variable `A` of spec §8: two states, prior `[0.8, 0.2]`. -/
def varA : Variable := ⟨"A", 2, [[0.8], [0.2]], [], []⟩

/-- Variable `B` of spec §8: two states, parent `A`,
table `[[0.5, 0.2], [0.5, 0.8]]`. -/
def varB : Variable := ⟨"B", 2, [[0.5, 0.2], [0.5, 0.8]], ["A"], [2]⟩

/-- The two-variable chain network of spec §8: `A → B`, insertion order
`A`, `B` (as built by `add_variable`/`add_edge`). -/
def chainNet : BayesianNetwork := ⟨[("A", varA), ("B", varB)], [(varA, [varB])]⟩

/-- A second parentless variable, used for the edgeless network. -/
def varC : Variable := ⟨"C", 1, [[1]], [], []⟩

/-- An acyclic network with two parentless variables and no edges,
inserted in the order `A`, `C`. -/
def noEdgeNet : BayesianNetwork := ⟨[("A", varA), ("C", varC)], []⟩

/-- One half of a two-cycle: `P` declares parent `Q`. -/
def varP : Variable := ⟨"P", 2, [[0.5, 0.5], [0.5, 0.5]], ["Q"], [2]⟩

/-- Other half of the two-cycle: `Q` declares parent `P`. -/
def varQ : Variable := ⟨"Q", 2, [[0.5, 0.5], [0.5, 0.5]], ["P"], [2]⟩

/-- A cyclic network `P → Q → P`. -/
def cycNet : BayesianNetwork :=
  ⟨[("P", varP), ("Q", varQ)], [(varP, [varQ]), (varQ, [varP])]⟩

/-- A variable with the same name as `A` but a different table, used to show
that `add_variable` silently replaces a registered variable. -/
def varA2 : Variable := ⟨"A", 2, [[0.5], [0.5]], [], []⟩

/-- A network holding only `A`. -/
def netA : BayesianNetwork := ⟨[("A", varA)], []⟩

/-- A valid variable that lists the SAME parent name twice: the source's
`parents.index(...)` then returns position 0 for both occurrences, so the
computed column differs from the specification's positional formula. -/
def varDup : Variable :=
  ⟨"E", 2, [[0.1, 0.2, 0.3, 0.4], [0.9, 0.8, 0.7, 0.6]], ["P", "P"], [2, 2]⟩

/-- The worked example of the source docstring (lines 20-40): 3 states,
parents `cond0` (3 states) and `cond1` (2 states), `cond0` varying fastest. -/
def eventVar : Variable :=
  ⟨"event", 3,
   [[0.2, 0.2, 0.7, 0, 0.2, 0.4],
    [0.3, 0.8, 0.2, 0, 0.2, 0.4],
    [0.5, 0, 0.1, 1, 0.6, 0.2]],
   ["cond0", "cond1"], [3, 2]⟩

theorem innerWhile_chain_aux : ∀ (f : Nat) (so : List Variable),
    innerWhile varA f ⟨[varA], so, [(varA, [varB])], [varA]⟩ = none := by
  intro f
  induction f with
  | zero => intro so; rfl
  | succ g ih =>
    intro so
    have step : innerWhile varA (g + 1) ⟨[varA], so, [(varA, [varB])], [varA]⟩ =
        innerWhile varA g ⟨[varA], so ++ [varB], [(varA, [varB])], [varA]⟩ := by
      simp [innerWhile, ddGet, vassocLookup, vassocSet, forAppend, List.find?]
    rw [step]
    exact ih _

theorem innerWhile_chain_none (f : Nat) :
    innerWhile varA f ⟨[varA], [], [(varA, [varB])], []⟩ = none := by
  cases f with
  | zero => rfl
  | succ g =>
    have step0 : innerWhile varA (g + 1) ⟨[varA], [], [(varA, [varB])], []⟩ =
        innerWhile varA g ⟨[varA], [varB], [(varA, [varB])], [varA]⟩ := by
      simp [innerWhile, ddGet, vassocLookup, vassocSet, forAppend, List.find?]
    rw [step0]
    exact innerWhile_chain_aux g [varB]

theorem sorted_nodes_chainNet_none : ∀ fuel, sorted_nodes chainNet fuel = none := by
  intro fuel
  cases fuel with
  | zero => rfl
  | succ f =>
    simp [sorted_nodes, outerWhile, innerWhile_chain_none f,
      show chainNet.«variables» = [("A", varA), ("B", varB)] from rfl,
      show chainNet.edges = [(varA, [varB])] from rfl,
      show varA.parents = [] from rfl, show varB.parents = ["A"] from rfl]

/-- C1: refuted (code bug).  On the §8 chain network with `vars = [A, B]` and
empty evidence, the reference recursion of the claim returns `1.0`, but the
source `_enumerate_all` pops the LAST variable `B` first and evaluates
`B.probability(0, {})` with `B`'s parent `A` unbound, raising `ValueError`. -/
theorem c1_enumerate_all_not_reference :
    enumerate_all chainNet [varA, varB] [] = .error .valueError ∧
    enumerateAllRef [varA, varB] [] = .ok 1 := by
  refine ⟨rfl, ?_⟩
  simp [enumerateAllRef, enumRefAux, probabilityPy, tableIndexStep, varA, varB, assocLookup, assocInsert,
    parentAssignmentFrom, npProdTake, pyTruncToInt, npIndex2,
    List.foldlM, List.findIdx, List.findIdx.go, pure, Except.pure, List.range,
    List.range.loop, List.mapM, List.mapM.loop, Bind.bind, Except.bind]
  norm_num

/-- C2: refuted (code bug).  Even when the engine is handed the correct full
topological order `[A, B]` of the §8 chain network, `_enumeration_ask("A", {})`
raises `ValueError` (its first `_enumerate_all` call already fails; moreover
the query binding is installed only AFTER each call, and as the `Variable`
object rather than the state index), whereas the claim's reference computation
returns the normalized weights `[0.8, 0.2]`. -/
theorem c2_enumeration_ask_not_reference :
    enumeration_ask ⟨chainNet, [varA, varB]⟩ "A" [] = .error .valueError ∧
    enumerationAskRef chainNet [varA, varB] "A" [] = .ok [0.8, 0.2] := by
  refine ⟨rfl, ?_⟩
  simp [enumerationAskRef, normalizeRef, netLookup, List.find?,
    show chainNet.«variables» = [("A", varA), ("B", varB)] from rfl,
    enumerateAllRef, enumRefAux, probabilityPy, tableIndexStep, varA, varB, assocLookup, assocInsert,
    parentAssignmentFrom, npProdTake, pyTruncToInt, npIndex2,
    List.foldlM, List.findIdx, List.findIdx.go, pure, Except.pure, List.range,
    List.range.loop, List.mapM, List.mapM.loop, Bind.bind, Except.bind]
  norm_num

/-- C3: refuted (code bug).  For the §8 chain network the engine cannot even
be constructed — `sorted_nodes` never terminates for any amount of fuel — and
an engine handed the correct order `[A, B]` still raises `ValueError` from
`query("A", {})`, while the claim's reference computation yields exactly the
prior `[0.8, 0.2]`. -/
theorem c3_query_marginal_fails :
    (∀ fuel, sorted_nodes chainNet fuel = none) ∧
    query ⟨chainNet, [varA, varB]⟩ "A" [] = .error .valueError ∧
    enumerationAskRef chainNet [varA, varB] "A" [] = .ok [0.8, 0.2] := by
  refine ⟨sorted_nodes_chainNet_none, rfl, ?_⟩
  simp [enumerationAskRef, normalizeRef, netLookup, List.find?,
    show chainNet.«variables» = [("A", varA), ("B", varB)] from rfl,
    enumerateAllRef, enumRefAux, probabilityPy, tableIndexStep, varA, varB, assocLookup, assocInsert,
    parentAssignmentFrom, npProdTake, pyTruncToInt, npIndex2,
    List.foldlM, List.findIdx, List.findIdx.go, pure, Except.pure, List.range,
    List.range.loop, List.mapM, List.mapM.loop, Bind.bind, Except.bind]
  norm_num

/-- C4: refuted (code bug).  On the edgeless (hence acyclic) two-variable
network, `sorted_nodes` raises `KeyError` in its final bookkeeping loop for
every sufficient amount of fuel, instead of returning the lexicographic
topological sequence; on an acyclic network with an edge it never returns at
all (see the C5 theorem). -/
theorem c4_sorted_nodes_not_topological :
    ∀ f : Nat, sorted_nodes noEdgeNet (f + 3) = some (.error .keyError) :=
  fun _ => rfl

/-- C5: refuted (code bug).  On the §8 chain network — acyclic, with one edge —
`sorted_nodes` exhausts every fuel bound: the inner loop removes the head
child and appends it back on every iteration, so its condition never becomes
false and the Python call never terminates. -/
theorem c5_sorted_nodes_nonterminating :
    ∀ fuel, sorted_nodes chainNet fuel = none :=
  sorted_nodes_chainNet_none

/-- C6: refuted (code bug).  On the cyclic network `P → Q → P` the source
raises `KeyError` (the final loop reads `children_of_variable[variable]` from
a dict that was never populated) rather than a `CycleDetected` error; its
intended cycle branch would only print a message and return `None`. -/
theorem c6_cycle_not_reported :
    (∀ f : Nat, sorted_nodes cycNet (f + 1) = some (.error .keyError)) ∧
    PyErr.keyError ≠ PyErr.cycleDetected :=
  ⟨fun _ => rfl, by decide⟩

theorem mapM_loop_ok {α β ε : Type} (f : α → Except ε β) (g : α → β)
    (h : ∀ a, f a = .ok (g a)) :
    ∀ (l : List α) (acc : List β),
      List.mapM.loop f l acc = .ok (acc.reverse ++ l.map g) := by
  intro l
  induction l with
  | nil => intro acc; simp [List.mapM.loop, pure, Except.pure]
  | cons a t ih =>
    intro acc
    simp [List.mapM.loop, h a, ih, Bind.bind, Except.bind]

theorem mapM_ok_of_forall {α β ε : Type} (f : α → Except ε β) (g : α → β)
    (h : ∀ a, f a = .ok (g a)) : ∀ l : List α, l.mapM f = .ok (l.map g) := by
  intro l
  have := mapM_loop_ok f g h l []
  simpa [List.mapM] using this

theorem sum_map_div (l : List ℚ) (z : ℚ) :
    (l.map (fun w => w * 1 / z)).sum = l.sum / z := by
  induction l with
  | nil => simp
  | cons a t ih =>
    simp only [List.map_cons, List.sum_cons, add_div]
    rw [ih]
    ring_nf

/-- C7 counterexample: at the weight list `[0]` (sum zero) the source raises
`ZeroDivisionError` from the division itself, not a `ZeroProbabilityEvidence`
error; and at the empty weight list (sum also zero) it raises nothing at all,
returning `[]`. -/
theorem c7_normalize_zero_counterexample :
    normalize [(0 : ℚ)] = .error .zeroDivisionError ∧
    normalize [(0 : ℚ)] ≠ .error .zeroProbabilityEvidence ∧
    normalize ([] : List ℚ) = .ok [] := by
  have h : normalize [(0 : ℚ)] = .error .zeroDivisionError := by
    simp [normalize, List.mapM, List.mapM.loop, Bind.bind, Except.bind]
  refine ⟨h, ?_, rfl⟩
  rw [h]
  simp

/-- C7 amended: for every NONEMPTY list of weights, `normalize` raises
`ZeroDivisionError` (not the specification's `ZeroProbabilityEvidence` name)
when the weight sum is zero — still an error reported to the caller, never a
NaN or a zero vector — and otherwise returns exactly `[w * 1 / z for w]`, a
list of the same length whose entries sum to 1.  (`normalize []` returns
`[]`, which is why nonemptiness is required.) -/
theorem c7_normalize_amended (ws : List ℚ) (hne : ws ≠ []) :
    (ws.sum = 0 → normalize ws = .error .zeroDivisionError) ∧
    (ws.sum ≠ 0 →
      normalize ws = .ok (ws.map (fun w => w * 1 / ws.sum)) ∧
      (ws.map (fun w => w * 1 / ws.sum)).sum = 1 ∧
      (ws.map (fun w => w * 1 / ws.sum)).length = ws.length) := by
  constructor
  · intro hz
    match ws, hne with
    | w :: t, _ =>
      simp only [normalize]
      rw [hz]
      simp [List.mapM, List.mapM.loop, Bind.bind, Except.bind]
  · intro hz
    refine ⟨?_, ?_, by simp⟩
    · simp only [normalize]
      exact mapM_ok_of_forall _ _ (fun a => by rw [if_neg hz]) ws
    · rw [sum_map_div, div_self hz]

/-- C7 witness: `normalize [2, 2]` hits the nonzero-sum branch of the amended
theorem and returns the announced list. -/
theorem c7_normalize_amended_witness :
    normalize [(2 : ℚ), 2] = .ok ([(2 : ℚ), 2].map (fun w => w * 1 / ([(2 : ℚ), 2]).sum)) :=
  (((c7_normalize_amended [2, 2] (by simp)).2) (by norm_num)).1

theorem assocLookup_assocInsert {α : Type} (d : List (String × α)) (k : String) (v : α) :
    assocLookup (assocInsert d k v) k = some v := by
  induction d with
  | nil => simp [assocInsert, assocLookup]
  | cons p t ih =>
    obtain ⟨k', v'⟩ := p
    by_cases h : k' == k
    · simp [assocInsert, assocLookup, h]
    · simp [assocInsert, assocLookup, h, ih]

/-- C9 counterexample: registering a second variable named `"A"` in a network
that already holds one succeeds and silently replaces the stored variable —
no `DuplicateVariable` error is raised. -/
theorem c9_add_variable_counterexample :
    add_variable netA (.varObj varA2) = .ok ⟨[("A", varA2)], []⟩ ∧ varA2 ≠ varA := by
  constructor
  · rfl
  · intro h
    have := congrArg Variable.table h
    simp only [varA2, varA] at this
    norm_num at this

/-- C9 amended: for every network and `Variable` whose name is already
registered, `add_variable` succeeds (a plain dict assignment) and the new
variable replaces the previously registered one under that name; only a
non-`Variable` argument is rejected, with `TypeError`. -/
theorem c9_add_variable_amended (bn : BayesianNetwork) (v : Variable)
    (_hdup : (assocLookup bn.«variables» v.name).isSome = true) :
    add_variable bn (.varObj v) = .ok ⟨assocInsert bn.«variables» v.name v, bn.edges⟩ ∧
    assocLookup (assocInsert bn.«variables» v.name v) v.name = some v :=
  ⟨rfl, assocLookup_assocInsert bn.«variables» v.name v⟩

/-- C9 witness: the amended theorem applied to `netA` (which registers `"A"`)
and the clashing variable `varA2`. -/
theorem c9_add_variable_amended_witness :
    add_variable netA (.varObj varA2) =
      .ok ⟨assocInsert netA.«variables» varA2.name varA2, netA.edges⟩ ∧
    assocLookup (assocInsert netA.«variables» varA2.name varA2) varA2.name = some varA2 :=
  c9_add_variable_amended netA varA2 rfl

/-- C10: confirmed.  Whenever the `state` argument is not a Python `int`
(e.g. a numpy integer scalar or a float, even an in-range one) or
`parentstates` is not a dict, `probability` raises `TypeError` — regardless of
the variable, of whether the state value is in range, and of which parents are
bound, i.e. the `isinstance` guards fire before the range check, the
per-parent presence checks and any table access. -/
theorem c10_probability_type_guards (v : Variable) (state parentstates : PyObj)
    (h : state.isInt = false ∨ parentstates.isDict = false) :
    probabilityPy v state parentstates = .error .typeError := by
  cases state <;> cases parentstates <;>
    simp_all [PyObj.isInt, PyObj.isDict, probabilityPy]

/-- C10 witness: an in-range float state, a numpy scalar state, and a non-dict
`parentstates` all yield `TypeError` on the §8 variable `B`. -/
theorem c10_probability_type_guards_witness :
    probabilityPy varB (.float 0) (.dict [("A", PyObj.int 0)]) = .error .typeError ∧
    probabilityPy varB (.npint 0) (.dict [("A", PyObj.int 0)]) = .error .typeError ∧
    probabilityPy varB (.int 0) (.int 0) = .error .typeError :=
  ⟨c10_probability_type_guards varB _ _ (Or.inl rfl),
   c10_probability_type_guards varB _ _ (Or.inl rfl),
   c10_probability_type_guards varB _ _ (Or.inr rfl)⟩

theorem tableIndexStep_int (v : Variable) (ps : List (String × PyObj)) (acc : ℚ)
    (p : String) (n : Int) (hn : assocLookup ps p = some (.int n)) :
    tableIndexStep v ps acc p =
      .ok (acc + ((psInt ps p : Int) : ℚ) *
        npProdTake v.no_parent_states (v.parents.findIdx (fun pn => pn == p))) := by
  simp [tableIndexStep, psInt, hn]

theorem foldlM_tableIndexStep (v : Variable) (ps : List (String × PyObj)) :
    ∀ (l : List String) (acc : ℚ),
      (∀ p ∈ l, ∃ n : Int, assocLookup ps p = some (.int n)) →
      l.foldlM (tableIndexStep v ps) acc =
        .ok (acc + (l.map (fun p => ((psInt ps p : Int) : ℚ) *
          npProdTake v.no_parent_states (v.parents.findIdx (fun pn => pn == p)))).sum) := by
  intro l
  induction l with
  | nil => intro acc _; simp [List.foldlM, pure, Except.pure]
  | cons p t ih =>
    intro acc hall
    obtain ⟨n, hn⟩ := hall p (by simp)
    rw [List.foldlM_cons, tableIndexStep_int v ps acc p n hn]
    have := ih (acc + ((psInt ps p : Int) : ℚ) *
        npProdTake v.no_parent_states (v.parents.findIdx (fun pn => pn == p)))
        (fun q hq => hall q (by simp [hq]))
    simp only [Bind.bind, Except.bind]
    rw [this]
    simp [List.map_cons, List.sum_cons, add_assoc]

theorem forall₂_mem_left {α β : Type} {R : α → β → Prop} :
    ∀ {l : List α} {l' : List β}, List.Forall₂ R l l' → ∀ a ∈ l, ∃ b, R a b := by
  intro l l' h
  induction h with
  | nil => intro a ha; cases ha
  | cons hab _ ih =>
    intro a ha
    rcases List.mem_cons.mp ha with rfl | ha
    · exact ⟨_, hab⟩
    · exact ih a ha

theorem prod_take_succ_cast (cards : List Nat) (i : Nat) :
    (((cards.take (i + 1)).prod : Nat) : ℚ) =
      ((cards.headD 1 : Nat) : ℚ) * (((cards.tail.take i).prod : Nat) : ℚ) := by
  cases cards with
  | nil => simp
  | cons c cs =>
    simp only [List.take_succ_cons, List.prod_cons, List.headD_cons, List.tail_cons]
    push_cast
    ring

theorem sum_findIdx_spec (ps : List (String × PyObj)) :
    ∀ (l : List String) (cards : List Nat) (strideI : Int), l.Nodup →
      (l.map (fun p => ((psInt ps p : Int) : ℚ) *
        ((strideI : ℚ) * (((cards.take (l.findIdx (fun pn => pn == p))).prod : Nat) : ℚ)))).sum
      = ((specColumnAux ps l cards strideI : Int) : ℚ) := by
  intro l
  induction l with
  | nil => intro cards strideI _; simp [specColumnAux]
  | cons p t ih =>
    intro cards strideI hnd
    rcases List.nodup_cons.mp hnd with ⟨hpt, hndt⟩
    rw [List.map_cons, List.sum_cons]
    have hhead : ((psInt ps p : Int) : ℚ) *
        ((strideI : ℚ) * ((((cards.take ((p :: t).findIdx (fun pn => pn == p))).prod : Nat)) : ℚ))
        = ((psInt ps p : Int) : ℚ) * (strideI : ℚ) := by
      have : (p :: t).findIdx (fun pn => pn == p) = 0 := by
        simp [List.findIdx_cons]
      rw [this]
      simp
    have htail : (t.map (fun q => ((psInt ps q : Int) : ℚ) *
          ((strideI : ℚ) * (((cards.take ((p :: t).findIdx (fun pn => pn == q))).prod : Nat) : ℚ)))).sum
        = ((specColumnAux ps t cards.tail (strideI * (cards.headD 1 : Int)) : Int) : ℚ) := by
      have hcong : t.map (fun q => ((psInt ps q : Int) : ℚ) *
            ((strideI : ℚ) * (((cards.take ((p :: t).findIdx (fun pn => pn == q))).prod : Nat) : ℚ)))
          = t.map (fun q => ((psInt ps q : Int) : ℚ) *
            (((strideI * (cards.headD 1 : Int) : Int) : ℚ) *
              (((cards.tail.take (t.findIdx (fun pn => pn == q))).prod : Nat) : ℚ))) := by
        apply List.map_congr_left
        intro q hq
        have hpq : (p == q) = false := by
          have : p ≠ q := fun h => hpt (h ▸ hq)
          simpa using this
        have hidx : (p :: t).findIdx (fun pn => pn == q) = t.findIdx (fun pn => pn == q) + 1 := by
          simp [List.findIdx_cons, hpq]
        rw [hidx, prod_take_succ_cast]
        push_cast
        ring
      rw [hcong, ih cards.tail (strideI * (cards.headD 1 : Int)) hndt]
    rw [hhead, htail]
    show _ = ((specColumnAux ps (p :: t) cards strideI : Int) : ℚ)
    rw [specColumnAux]
    push_cast
    ring

theorem specColumnAux_bounds (ps : List (String × PyObj)) :
    ∀ (l : List String) (cards : List Nat) (strideI : Int), 0 < strideI →
      List.Forall₂ (fun (p : String) (c : Nat) => ∃ n : Int,
        assocLookup ps p = some (.int n) ∧ 0 ≤ n ∧ n < (c : Int)) l cards →
      0 ≤ specColumnAux ps l cards strideI ∧
        specColumnAux ps l cards strideI ≤ strideI * (((cards.prod : Nat) : Int) - 1) := by
  intro l
  induction l with
  | nil =>
    intro cards strideI hpos hf
    cases hf
    simp [specColumnAux]
  | cons p t ih =>
    intro cards strideI hpos hf
    cases hf with
    | cons hpc htail =>
      rename_i c cs
      obtain ⟨n, hn, hn0, hnc⟩ := hpc
      have hc1 : (1 : Int) ≤ (c : Int) := by omega
      have hvp : psInt ps p = n := by simp [psInt, hn]
      have ihr := ih cs (strideI * (c : Int)) (by positivity) htail
      rw [specColumnAux]
      simp only [List.tail_cons, List.headD_cons, hvp]
      constructor
      · have : 0 ≤ n * strideI := mul_nonneg hn0 (le_of_lt hpos)
        omega
      · have h1 : n * strideI ≤ ((c : Int) - 1) * strideI := by
          apply mul_le_mul_of_nonneg_right _ (le_of_lt hpos)
          omega
        have h2 : specColumnAux ps t cs (strideI * (c : Int)) ≤
            strideI * (c : Int) * (((cs.prod : Nat) : Int) - 1) := ihr.2
        have hprod : (((c :: cs).prod : Nat) : Int) = (c : Int) * ((cs.prod : Nat) : Int) := by
          push_cast [List.prod_cons]
          ring
        rw [hprod]
        nlinarith [ihr.1]

theorem pyTruncToInt_intCast (n : Int) : pyTruncToInt ((n : ℚ)) = n := by
  unfold pyTruncToInt
  rw [Rat.num_intCast, Rat.den_intCast]
  simp [Int.tdiv_one]

theorem valid_facts (v : Variable) (hv : v.valid) :
    v.table.length = v.no_states ∧
    (∀ r ∈ v.table, r.length = v.no_parent_states.prod) ∧
    v.parents.length = v.no_parent_states.length := by
  unfold Variable.valid variableConstruct at hv
  by_cases h1 : rectangular v.table = true
  case neg =>
    rw [if_pos (by simpa using h1)] at hv
    exact absurd hv (by simp)
  rw [if_neg (by simpa using h1)] at hv
  by_cases h2 : v.table.length = v.no_states
  case neg =>
    rw [if_pos h2] at hv
    exact absurd hv (by simp)
  rw [if_neg (not_not_intro h2)] at hv
  rcases hT : v.table with _ | ⟨r0, rs⟩
  · rw [hT] at hv
    exact absurd hv (by simp)
  rw [hT] at hv
  simp only [List.head?_cons] at hv
  by_cases h3 : r0.length = v.no_parent_states.prod
  case neg =>
    rw [if_pos h3] at hv
    exact absurd hv (by simp)
  rw [if_neg (not_not_intro h3)] at hv
  by_cases h4 : columnsAllClose (r0 :: rs) r0.length = true
  case neg =>
    rw [if_pos (by simpa using h4)] at hv
    exact absurd hv (by simp)
  rw [if_neg (by simpa using h4)] at hv
  by_cases h5 : v.parents.length = v.no_parent_states.length
  case neg =>
    rw [if_pos h5] at hv
    exact absurd hv (by simp)
  rw [if_neg (not_not_intro h5)] at hv
  refine ⟨by rw [← hT]; exact h2, ?_, h5⟩
  have hrect : ∀ r ∈ rs, r.length = r0.length := by
    have := h1
    rw [hT] at this
    simp only [rectangular, List.all_eq_true] at this
    intro r hr
    simpa using this r hr
  intro r hr
  rcases List.mem_cons.mp hr with rfl | hr
  · exact h3
  · rw [hrect r hr]
    exact h3

theorem npIndex2_ok (table : List (List ℚ)) (r : Nat) (c : Int) (row : List ℚ)
    (hrow : table.get? r = some row) (hc0 : 0 ≤ c) (hclen : c < (row.length : Int)) :
    npIndex2 table (r : Int) c = .ok (row.getD c.toNat 0) := by
  have hr0 : ¬ ((r : Int) < 0) := not_lt.mpr (Int.natCast_nonneg r)
  have hcneg : ¬ (c < 0) := not_lt.mpr hc0
  have hlt : c.toNat < row.length := by omega
  simp only [npIndex2, if_neg hr0, Int.toNat_natCast, hrow]
  rw [if_neg hcneg, if_neg hcneg]
  rw [List.get?_eq_get hlt]
  rw [List.getD_eq_get? row c.toNat 0, List.get?_eq_get hlt]
  rfl

/-- C8 counterexample: `varDup` passes the source constructor (so it is a
valid Variable in the claim's sense) yet lists the parent name `P` twice with
cardinalities `[2, 2]`.  With the in-range assignment `{P: 1}` the claimed
positional mixed-radix formula gives column `1*1 + 1*2 = 3` (table entry
`0.4`), but the source returns the entry of column 2 (`0.3`), because
`parents.index(...)` yields position 0 for BOTH occurrences of `P`. -/
theorem c8_probability_column_counterexample :
    varDup.valid ∧
    List.Forall₂ (fun (p : String) (c : Nat) => ∃ n : Int,
      assocLookup [("P", PyObj.int 1)] p = some (.int n) ∧ 0 ≤ n ∧ n < (c : Int))
      varDup.parents varDup.no_parent_states ∧
    probabilityPy varDup (.int 0) (.dict [("P", PyObj.int 1)]) = .ok 0.3 ∧
    specColumn varDup [("P", PyObj.int 1)] = 3 ∧
    (varDup.table.getD 0 []).getD (specColumn varDup [("P", PyObj.int 1)]).toNat 0 = 0.4 ∧
    (0.3 : ℚ) ≠ 0.4 := by
  refine ⟨?_, ?_, ?_, rfl, rfl, by norm_num⟩
  · simp only [Variable.valid, variableConstruct, varDup, rectangular, columnsAllClose, colSum]
    norm_num [List.range, List.range.loop]
  · exact List.Forall₂.cons ⟨1, rfl, by norm_num, by norm_num⟩
      (List.Forall₂.cons ⟨1, rfl, by norm_num, by norm_num⟩ List.Forall₂.nil)
  · simp [probabilityPy, tableIndexStep, varDup, assocLookup, npProdTake, pyTruncToInt, npIndex2,
      List.foldlM, List.findIdx, List.findIdx.go, pure, Except.pure, Bind.bind, Except.bind]
    norm_num
    rfl

/-- C8 amended: for every valid `Variable` whose parent names are pairwise
DISTINCT, every in-range state, and every `parentstates` mapping binding each
declared parent to an in-range integer, `probability(state, parentstates)`
returns `table[state][column]` with `column` the specification's mixed-radix
index (first-listed parent has stride 1, later parents' strides the products
of the preceding cardinalities).  Distinctness is needed because the source
computes each parent's position with `parents.index(...)` (first
occurrence). -/
theorem c8_probability_mixed_radix (v : Variable) (hv : v.valid) (hnd : v.parents.Nodup)
    (state : Nat) (hs : state < v.no_states) (ps : List (String × PyObj))
    (hps : List.Forall₂ (fun (p : String) (c : Nat) => ∃ n : Int,
      assocLookup ps p = some (.int n) ∧ 0 ≤ n ∧ n < (c : Int)) v.parents v.no_parent_states) :
    probabilityPy v (.int (state : Int)) (.dict ps) =
      .ok ((v.table.getD state []).getD (specColumn v ps).toNat 0) := by
  obtain ⟨hlen, hrows, hpl⟩ := valid_facts v hv
  have hall : ∀ p ∈ v.parents, ∃ n : Int, assocLookup ps p = some (.int n) := by
    intro p hp
    obtain ⟨b, hb⟩ := forall₂_mem_left hps p hp
    obtain ⟨n, hn, _, _⟩ := hb
    exact ⟨n, hn⟩
  have hfold := foldlM_tableIndexStep v ps v.parents 0 hall
  have hcong : v.parents.map (fun p => ((psInt ps p : Int) : ℚ) *
      npProdTake v.no_parent_states (v.parents.findIdx (fun pn => pn == p)))
      = v.parents.map (fun p => ((psInt ps p : Int) : ℚ) *
        (((1 : Int) : ℚ) *
          (((v.no_parent_states.take (v.parents.findIdx (fun pn => pn == p))).prod : Nat) : ℚ))) := by
    apply List.map_congr_left
    intro q _
    simp [npProdTake]
  have hsum : (v.parents.map (fun p => ((psInt ps p : Int) : ℚ) *
      npProdTake v.no_parent_states (v.parents.findIdx (fun pn => pn == p)))).sum
      = ((specColumn v ps : Int) : ℚ) := by
    rw [hcong, sum_findIdx_spec ps v.parents v.no_parent_states 1 hnd]
    rfl
  have hbounds := specColumnAux_bounds ps v.parents v.no_parent_states 1 (by norm_num) hps
  have hcol0 : 0 ≤ specColumn v ps := hbounds.1
  have hcolU : specColumn v ps < ((v.no_parent_states.prod : Nat) : Int) := by
    have hb2 := hbounds.2
    rw [one_mul] at hb2
    have : 0 < ((v.no_parent_states.prod : Nat) : Int) := by
      unfold specColumn at hcol0
      omega
    unfold specColumn
    omega
  have hglt : state < v.table.length := by omega
  have hrow : v.table.get? state = some (v.table.get ⟨state, hglt⟩) := List.get?_eq_get hglt
  have hrowlen : (v.table.get ⟨state, hglt⟩).length = v.no_parent_states.prod :=
    hrows _ (v.table.get_mem _ _)
  have h1 : ¬ ((v.no_states : Int) ≤ (state : Int)) := not_le.mpr (by exact_mod_cast hs)
  have h2 : ¬ ((state : Int) < 0) := not_lt.mpr (Int.natCast_nonneg state)
  have hgetD : v.table.getD state [] = v.table.get ⟨state, hglt⟩ := by
    rw [List.getD_eq_get? v.table state [], hrow]
    rfl
  simp only [probabilityPy, if_neg h1, if_neg h2, hfold, hsum, zero_add, pyTruncToInt_intCast]
  rw [npIndex2_ok v.table state (specColumn v ps) (v.table.get ⟨state, hglt⟩) hrow hcol0
    (by rw [hrowlen]; exact_mod_cast hcolU)]
  rw [hgetD]

/-- C8 witness: the amended theorem applied to the source docstring worked
example (3 states; parents `cond0`, `cond1` of cardinalities 3 and 2, `cond0`
varying fastest): `probability(0, {cond0:1, cond1:1})` is the entry at row 0,
column `1 + 1*3 = 4`, namely `0.2`. -/
theorem c8_probability_mixed_radix_witness :
    probabilityPy eventVar (.int ((0 : Nat) : Int))
        (.dict [("cond0", PyObj.int 1), ("cond1", PyObj.int 1)]) =
      .ok ((eventVar.table.getD 0 []).getD
        (specColumn eventVar [("cond0", PyObj.int 1), ("cond1", PyObj.int 1)]).toNat 0) ∧
    specColumn eventVar [("cond0", PyObj.int 1), ("cond1", PyObj.int 1)] = 4 ∧
    (eventVar.table.getD 0 []).getD (4 : Int).toNat 0 = 0.2 :=
  ⟨c8_probability_mixed_radix eventVar
      (by
        simp only [Variable.valid, variableConstruct, eventVar, rectangular, columnsAllClose,
          colSum]
        norm_num [List.range, List.range.loop])
      (by decide) 0 (by norm_num [eventVar])
      [("cond0", PyObj.int 1), ("cond1", PyObj.int 1)]
      (List.Forall₂.cons ⟨1, rfl, by norm_num, by norm_num⟩
        (List.Forall₂.cons ⟨1, rfl, by norm_num, by norm_num⟩ List.Forall₂.nil)),
   rfl, rfl⟩

end Ex1
